import Mathlib

/-!
# DNS resource-record envelope: `include/protocol/rr.h`

A shallow embedding of the declarations and function-like preprocessor
definitions of `rr.h`:

* `struct _RR` (`RR_t`, packed) and `struct _RR_ptr` (`RR_ptr_t`);
* `rr_locate`, `rr_assign`, `rr_locate_assign`;
* `rr_member` and the six `rr_member_<member>` definitions it pastes to.

A preprocessor definition is embedded as a Lean function of its parameters.
An identifier of its body that is *not* one of its parameters is resolved in
the scope of the place of use, which is an explicit argument (`Scope`).
Integers are natural numbers reduced modulo `2 ^ width`; a pointer to bytes
is given by the bytes of the object it points into, from the target on.

A statement of an expansion is either well formed, and then has its effect,
or ill formed, and then has a diagnostic and no effect. A use with a
diagnostic is rejected by the compiler: there is no program and the use has
no effect at all (`Outcome.effect`). The member `var` of an `Outcome` reads
the well-formed statements of such a use by themselves.
-/

namespace DDNS

/-! ## Object types and the packed layout -/

/-- Byte order of the host that runs the code. -/
inductive Endian where
  | little
  | big
deriving DecidableEq, Repr

/-- Modelled from the spec: the object types that occur in the declaration of
`RR_t`; `type.h`, which declares them, is not among the sources, and `u16_t`,
`u32_t` and `uchar` are the unsigned 16-bit, 32-bit and 8-bit integers their
names say ("rdlength: 16-bit unsigned"). `i32_t` is the "signed 32-bit
integer" that the data model names for the ttl; `rr.h` does not use it. -/
inductive CType where
  | u16_t
  | u32_t
  | i32_t
  | uchar
  | array (elem : CType) (len : Nat)
deriving DecidableEq, Repr

/-- The `sizeof` operator, in bytes. -/
def sizeof : CType → Nat
  | .u16_t => 2
  | .u32_t => 4
  | .i32_t => 4
  | .uchar => 1
  | .array e n => n * sizeof e

/-- Modelled from the spec: `RR_TYPE_t` is declared in `rr_dtl.h`, which is not
among the sources; the data model gives "type: 16-bit code". -/
def RR_TYPE_t : CType := .u16_t

/-- Modelled from the spec: `RR_CLASS_t` is declared in `rr_dtl.h`, which is not
among the sources; the data model gives "class: 16-bit code". -/
def RR_CLASS_t : CType := .u16_t

/-- Source: `typedef u32_t TTL_t;` (rr.h line 81). -/
def TTL_t : CType := .u32_t

/-- The member declarations of `struct _RR`, in declaration order
(rr.h lines 93-99); `rdata` is the zero-length trailing array `uchar rdata[0]`. -/
def RR_t.decl : List (String × CType) :=
  [("type", RR_TYPE_t), ("class", RR_CLASS_t), ("ttl", TTL_t),
   ("rdlength", .u16_t), ("rdata", .array .uchar 0)]

/-- Layout of a struct declared `__attribute__((packed))`: every member is
placed right after the one before it. Each entry is (member, offset, size). -/
def packedLayout : Nat → List (String × CType) → List (String × Nat × Nat)
  | _, [] => []
  | off, (m, t) :: rest => (m, off, sizeof t) :: packedLayout (off + sizeof t) rest

/-- The `offsetof` of a member of a packed struct. -/
def offsetof (d : List (String × CType)) (member : String) : Option Nat :=
  ((packedLayout 0 d).lookup member).map (fun p => p.1)

/-- The `sizeof` of a packed struct: the sum of the sizes of its members. -/
def packedSize (d : List (String × CType)) : Nat :=
  (d.map (fun p => sizeof p.2)).sum

/-! ## Integers in memory and the byte-order conversions -/

/-- The `w` low bytes of `x`, most significant first. -/
def beBytes : Nat → Nat → List Nat
  | 0, _ => []
  | w + 1, x => (x / 256 ^ w) % 256 :: beBytes w x

/-- The bytes, by increasing address, of a `w`-byte integer object that holds
`x` on a host of the given byte order. -/
def objBytes (host : Endian) (w x : Nat) : List Nat :=
  match host with
  | .big => beBytes w x
  | .little => (beBytes w x).reverse

/-- Exchange of the two bytes of a 16-bit value. -/
def bswap16 (x : Nat) : Nat := (x % 256) * 256 + (x / 256) % 256

/-- Reversal of the four bytes of a 32-bit value. -/
def bswap32 (x : Nat) : Nat :=
  (x % 256) * 16777216 + (x / 256 % 256) * 65536 + (x / 65536 % 256) * 256
    + (x / 16777216) % 256

/-- The C library `htons`: its argument is converted to `uint16_t`; the
identity on a big-endian host, a byte swap on a little-endian one. -/
def htons (host : Endian) (x : Nat) : Nat :=
  match host with
  | .big => x % 65536
  | .little => bswap16 (x % 65536)

/-- The C library `htonl`, on `uint32_t`. -/
def htonl (host : Endian) (x : Nat) : Nat :=
  match host with
  | .big => x % 4294967296
  | .little => bswap32 (x % 4294967296)

/-- The C library `ntohs`: the same conversion as `htons`. -/
def ntohs (host : Endian) (x : Nat) : Nat := htons host x

/-- The C library `ntohl`: the same conversion as `htonl`. -/
def ntohl (host : Endian) (x : Nat) : Nat := htonl host x

/-! ## Records -/

/-- A value handed to or read by the code: an integer, or a pointer to bytes
(given by the bytes at and after its target). -/
inductive CVal where
  | int (n : Nat)
  | ptr (bytes : List Nat)
deriving DecidableEq, Repr

/-- An object of type `RR_t` (rr.h lines 93-99): each integer member holds the
value of the object as the host reads it; `rdata` is the bytes that follow
the fixed members. The member `class` is written `class_`. -/
structure RR_t where
  type : Nat
  class_ : Nat
  ttl : Nat
  rdlength : Nat
  rdata : List Nat
deriving DecidableEq, Repr

/-- An object of type `RR_ptr_t` (rr.h lines 101-104) together with what its
two pointers point at: `name` is the bytes at `var->name`, `rr` the record at
`var->rr`. -/
structure RR_ptr_t where
  name : List Nat
  rr : RR_t
deriving DecidableEq, Repr

/-- The bytes of an `RR_t` object in memory, members in declaration order and
packed. -/
def RR_t.bytes (host : Endian) (r : RR_t) : List Nat :=
  objBytes host (sizeof RR_TYPE_t) r.type ++ objBytes host (sizeof RR_CLASS_t) r.class_
    ++ objBytes host (sizeof TTL_t) r.ttl ++ objBytes host (sizeof .u16_t) r.rdlength
    ++ r.rdata

/-- The bytes of a record that lie at `[off, off + len)`. -/
def slice (bs : List Nat) (off len : Nat) : List Nat := (bs.drop off).take len

/-- Read of `r->member` for a member named by its token; `none` when
`struct _RR` declares no member of that name. -/
def RR_t.get (r : RR_t) (member : String) : Option CVal :=
  if member = "type" then some (.int r.type)
  else if member = "class" then some (.int r.class_)
  else if member = "ttl" then some (.int r.ttl)
  else if member = "rdlength" then some (.int r.rdlength)
  else if member = "rdata" then some (.ptr r.rdata)
  else none

/-- Write of `r->member = v` for a member named by its token, the value
converted to the member's type; `none` when `struct _RR` declares no member of
that name or the value has the wrong kind. -/
def RR_t.set (r : RR_t) (member : String) (v : CVal) : Option RR_t :=
  match v with
  | .int n =>
    if member = "type" then some { r with type := n % 2 ^ (8 * sizeof RR_TYPE_t) }
    else if member = "class" then some { r with class_ := n % 2 ^ (8 * sizeof RR_CLASS_t) }
    else if member = "ttl" then some { r with ttl := n % 2 ^ (8 * sizeof TTL_t) }
    else if member = "rdlength" then some { r with rdlength := n % 2 ^ (8 * sizeof .u16_t) }
    else none
  | .ptr d =>
    if member = "rdata" then some { r with rdata := d } else none

/-- Read of `s->member` for a byte-pointer member of `RR_ptr_t`, named by its
token. -/
def RR_ptr_t.get (s : RR_ptr_t) (member : String) : Option CVal :=
  if member = "name" then some (.ptr s.name) else none

/-! ## C strings -/

/-- The bytes of the string at a pointer: those before the first zero. -/
def cstr (s : List Nat) : List Nat := s.takeWhile (fun b => b != 0)

/-- The C library `strlen`. -/
def strlen (s : List Nat) : Nat := (cstr s).length

/-- What makes the behaviour of a library call undefined. -/
inductive Fault where
  | unterminated
  | overflow (beyond : List Nat)
deriving DecidableEq, Repr

/-- The C library `strcpy (dst, src)`. `dst` is the destination object (its
length is its capacity), `src` the source object. The string at `src` and
its terminating zero replace the first `strlen src + 1` bytes of `dst`.
`strcpy` tests nothing: a source with no zero is read past its end, and a
string longer than the destination is written past the end of the
destination, `beyond` being the bytes that land outside it; the behaviour
is then undefined. -/
def strcpy (dst src : List Nat) : Except Fault (List Nat) :=
  if 0 ∈ src then
    if strlen src + 1 ≤ dst.length then
      .ok (cstr src ++ [0] ++ dst.drop (strlen src + 1))
    else .error (.overflow ((cstr src ++ [0]).drop dst.length))
  else .error .unterminated

/-! ## Identifiers, scope and diagnostics -/

/-- The identifiers visible at the place where a definition of `rr.h` is used,
with their values. -/
abbrev Scope := String → Option CVal

/-- An operand in the body of a function-like definition: either one of the
definition's parameters, replaced by the argument of the use, or an
identifier that is not a parameter and is looked up in the scope of the use. -/
inductive Operand where
  | arg (v : CVal)
  | free (ident : String)
deriving DecidableEq, Repr

/-- What the compiler reports on an ill-formed expansion. -/
inductive Diag where
  | undeclared (ident : String)
  | noMember (struct member : String)
  | illTyped (member : String)
  | arity (passed takes : Nat)
deriving DecidableEq, Repr

/-- The value of an operand at a place of use. -/
def Operand.eval (scope : Scope) : Operand → Option CVal
  | .arg v => some v
  | .free ident => scope ident

/-- The diagnostic of an operand: a free identifier the scope does not bind. -/
def Operand.diag (scope : Scope) : Operand → List Diag
  | .arg _ => []
  | .free ident => if (scope ident).isSome then [] else [.undeclared ident]

/-- A conversion applied to an integer value, the way `htons (value)` is. -/
def onInt (f : Nat → Nat) : CVal → CVal
  | .int n => .int (f n)
  | .ptr d => .ptr d

/-- The reading of the statements of an expansion one after the other: the
record as the well-formed statements so far leave it, and the diagnostics of
the ill-formed ones. -/
abbrev St := RR_ptr_t × List Diag

/-- The next statement of an expansion: a well-formed one has its effect on
the record, an ill-formed one has none and its diagnostics are added; the
compiler reports it and goes on to the statement after it. -/
def St.next (st : St) (stmt : RR_ptr_t → Except (List Diag) RR_ptr_t) : St :=
  match stmt st.1 with
  | .ok v => (v, st.2)
  | .error ds => (st.1, st.2 ++ ds)

/-- The result of a use of `rr_assign` or `rr_locate_assign`.
`diag` is what the compiler reports on the expansion; when it is not empty the
use is rejected. `var` is the record as the well-formed statements of the
expansion, read by themselves, leave it; `value` is the value of the statement
expression (`_s`) when it has one; `fault` is set when a library call of the
expansion has undefined behaviour, and `var` then says nothing of the name. -/
structure Outcome where
  var : RR_ptr_t
  value : Option Nat
  diag : List Diag
  fault : Option Fault := none
deriving DecidableEq, Repr

/-- What a use does in a program. An expansion with a diagnostic does not
compile, so there is no program and no effect; one with a fault has no
defined effect; otherwise the record and the value. -/
def Outcome.effect (o : Outcome) : Option (RR_ptr_t × Option Nat) :=
  if o.diag = [] ∧ o.fault = none then some (o.var, o.value) else none

/-! ## The definitions of rr.h -/

/-- Modelled from the spec: `protocol_struct_member_assign (var, _struct,
member, value, conv)` is defined in a header that is not among the sources.
The spec has the RR codec encode "the fixed RR envelope (type, class, TTL,
rdata length)" with the fields in "network/big-endian order", says of the ttl
that "the source macros pass it through `htonl` without sign checking", and of
the rdata that the struct "uses a flexible trailing array (`rdata[0]`) to
overlay variable-length payload onto a fixed struct". So the statement is the
assignment `var->_struct->member = conv (value);`, with no `conv` the value as
it is, and for `rdata` the bytes at the pointer overlaid as the payload (how
many of them the spec does not say: all the bytes of the operand are taken).
A member that `struct _RR` does not declare, an identifier that is not
declared, or a value of the wrong kind makes the statement ill formed: it has
diagnostics and no effect. -/
def protocol_struct_member_assign (scope : Scope) (var : RR_ptr_t) (_struct member : String)
    (value : Operand) (conv : CVal → CVal) : Except (List Diag) RR_ptr_t :=
  if _struct = "rr" then
    match value.eval scope with
    | none =>
      .error (value.diag scope
        ++ (if (var.rr.get member).isSome then [] else [Diag.noMember "rr" member]))
    | some v =>
      match var.rr.set member (conv v) with
      | some r => .ok { var with rr := r }
      | none =>
        .error (if (var.rr.get member).isSome then [Diag.illTyped member]
          else [Diag.noMember "rr" member])
  else .error [Diag.noMember "var" _struct]

/-- The width of `size_t`, in bits. -/
def SIZE_BITS : Nat := 64

/-- Source: `rr_assign(var, _name, _type, _class, _ttl, _rd_len, _rdata)`
(rr.h lines 119-129), statement by statement. The operands `_rdlen`, `name`
and `rd_len` of lines 125 and 127 are not parameters of the definition, and
the parameter `_rd_len` is used by no statement. -/
def rr_assign (host : Endian) (scope : Scope) (var : RR_ptr_t)
    (_name : List Nat) (_type _class _ttl _rd_len : Nat) (_rdata : List Nat) : Outcome :=
  -- strcpy(var->name, _name);
  let copied := strcpy var.name _name
  let s0 : St :=
    (match copied with
      | .ok bytes => { var with name := bytes }
      | .error _ => var, [])
  -- protocol_struct_member_assign(var, rr,  type,  _type, htons);
  let s1 := s0.next (fun x =>
    protocol_struct_member_assign scope x "rr" "type" (.arg (.int _type)) (onInt (htons host)))
  -- protocol_struct_member_assign(var, rr, class, _class, htons);
  let s2 := s1.next (fun x =>
    protocol_struct_member_assign scope x "rr" "class" (.arg (.int _class)) (onInt (htons host)))
  -- protocol_struct_member_assign(var, rr,   ttl,   _ttl, htonl);
  let s3 := s2.next (fun x =>
    protocol_struct_member_assign scope x "rr" "ttl" (.arg (.int _ttl)) (onInt (htonl host)))
  -- protocol_struct_member_assign(var, rr, rdlen, _rdlen, htons);
  let s4 := s3.next (fun x =>
    protocol_struct_member_assign scope x "rr" "rdlen" (.free "_rdlen") (onInt (htons host)))
  -- size_t _s = (strlen(name) + 1) + sizeof(RR_t) + (size_t) rd_len;
  let _s : Option Nat :=
    match (Operand.free "name").eval scope, (Operand.free "rd_len").eval scope with
    | some (.ptr name), some (.int rd_len) =>
      some (((strlen name + 1) + packedSize RR_t.decl + rd_len) % 2 ^ SIZE_BITS)
    | _, _ => none
  let d := (Operand.free "name").diag scope ++ (Operand.free "rd_len").diag scope
  -- protocol_struct_member_assign(var, rr, rdata, _rdata);
  let s5 := St.next (s4.1, s4.2 ++ d) (fun x =>
    protocol_struct_member_assign scope x "rr" "rdata" (.arg (.ptr _rdata)) id)
  -- _s;
  { var := s5.1, value := _s, diag := s5.2,
    fault := match copied with
      | .ok _ => none
      | .error f => some f }

/-- Source: `rr_locate(var, locate)` is `_locate(var->name, locate)` (rr.h line
111). `_locate` is defined in a header that is not among the sources and is a
parameter here: from the pointer `var->name` and `locate` it gives the new
`var->name`. -/
def rr_locate (_locate : List Nat → List Nat → List Nat) (var : RR_ptr_t)
    (locate : List Nat) : RR_ptr_t :=
  { var with name := _locate var.name locate }

/-- The parameters of `rr_assign` (rr.h line 119). -/
def rr_assign_params : List String :=
  ["var", "_name", "_type", "_class", "_ttl", "_rd_len", "_rdata"]

/-- A use `rr_assign(var, args...)` as the preprocessor expands it: the number
of arguments passed must be the number of parameters; then the operands are
evaluated and handed to the body. -/
def rr_assign_use (host : Endian) (scope : Scope) (var : RR_ptr_t)
    (args : List Operand) : Outcome :=
  if args.length + 1 = rr_assign_params.length then
    match args.map (Operand.eval scope) with
    | [some (.ptr n), some (.int t), some (.int c), some (.int ttl), some (.int k),
        some (.ptr d)] => rr_assign host scope var n t c ttl k d
    | _ => { var := var, value := none,
             diag := (args.map (Operand.diag scope)).flatten ++ [Diag.illTyped "rr_assign"] }
  else
    { var := var, value := none,
      diag := [Diag.arity (args.length + 1) rr_assign_params.length] }

/-- The parameters of `rr_locate_assign` (rr.h line 131). -/
def rr_locate_assign_params : List String :=
  ["var", "locate", "_qname", "_qtype", "_qclass"]

/-- The arguments `rr_locate_assign` writes in its use of `rr_assign`
(rr.h lines 134-136), by name. -/
def rr_locate_assign_args : List String :=
  ["var", "_id", "_qr", "_opcode", "_aa", "_tc", "_rd", "_ra", "_z", "_rcode",
   "_qdcount", "_ancount", "_nscount", "_arcount"]

/-- Source: `rr_locate_assign(var, locate, _qname, _qtype, _qclass)` (rr.h lines
131-137): `rr_locate(var, locate);` and then `rr_assign` used on `var` and the
thirteen identifiers `_id` ... `_arcount`, none of which is a parameter. -/
def rr_locate_assign (host : Endian) (_locate : List Nat → List Nat → List Nat)
    (scope : Scope) (var : RR_ptr_t) (locate : List Nat)
    (_qname : List Nat) (_qtype _qclass : Nat) : Outcome :=
  -- rr_locate(var, locate);
  let var1 := rr_locate _locate var locate
  -- size_t _s = rr_assign(var, _id, _qr, _opcode, ..., _arcount); _s;
  rr_assign_use host scope var1 (rr_locate_assign_args.tail.map Operand.free)

/-- Source: `rr_member_name(_struct, member, ...)` is
`__VA_ARGS__(_struct->member)` (rr.h lines 145-146). -/
def rr_member_name {β : Type} (_struct : RR_ptr_t) (member : String) (f : CVal → β) :
    Option β :=
  (_struct.get member).map f

/-- Source: `rr_member_type(_struct, member, ...)` is
`__VA_ARGS__(_struct->rr->member)` (rr.h lines 148-149). -/
def rr_member_type {β : Type} (_struct : RR_ptr_t) (member : String) (f : CVal → β) :
    Option β :=
  (_struct.rr.get member).map f

/-- Source: `rr_member_class`, rr.h lines 151-152. -/
def rr_member_class {β : Type} (_struct : RR_ptr_t) (member : String) (f : CVal → β) :
    Option β :=
  (_struct.rr.get member).map f

/-- Source: `rr_member_ttl`, rr.h lines 154-155. -/
def rr_member_ttl {β : Type} (_struct : RR_ptr_t) (member : String) (f : CVal → β) :
    Option β :=
  (_struct.rr.get member).map f

/-- Source: `rr_member_rdlength`, rr.h lines 157-158. -/
def rr_member_rdlength {β : Type} (_struct : RR_ptr_t) (member : String) (f : CVal → β) :
    Option β :=
  (_struct.rr.get member).map f

/-- Source: `rr_member_rdata`, rr.h lines 160-161. -/
def rr_member_rdata {β : Type} (_struct : RR_ptr_t) (member : String) (f : CVal → β) :
    Option β :=
  (_struct.rr.get member).map f

/-- Source: `rr_member(_struct, member, ...)` is
`rr_member_ ## member(_struct, member, __VA_ARGS__)` (rr.h lines 142-143): the
token `member` selects one of the six definitions above; any other token
names no definition. With no function given, `f` is the identity. -/
def rr_member {β : Type} (_struct : RR_ptr_t) (member : String) (f : CVal → β) :
    Option β :=
  if member = "name" then rr_member_name _struct member f
  else if member = "type" then rr_member_type _struct member f
  else if member = "class" then rr_member_class _struct member f
  else if member = "ttl" then rr_member_ttl _struct member f
  else if member = "rdlength" then rr_member_rdlength _struct member f
  else if member = "rdata" then rr_member_rdata _struct member f
  else none

/-! ## Inputs used in the evaluations -/

/-- A zeroed record whose name buffer is 17 zeroed bytes, the size of the
wire form of `www.example.com`. -/
def zeroVar : RR_ptr_t :=
  { name := [0, 0, 0, 0, 0, 0, 0, 0, 0, 0, 0, 0, 0, 0, 0, 0, 0],
    rr := { type := 0, class_ := 0, ttl := 0, rdlength := 0, rdata := [] } }

/-- A zeroed record whose name buffer is 255 zeroed bytes, the limit of the
header comment (rr.h lines 20-22). -/
def limitVar : RR_ptr_t :=
  { name := List.replicate 255 0,
    rr := { type := 0, class_ := 0, ttl := 0, rdlength := 0, rdata := [] } }

/-- A zeroed record whose name buffer is 512 zeroed bytes. -/
def roomyVar : RR_ptr_t :=
  { name := List.replicate 512 0,
    rr := { type := 0, class_ := 0, ttl := 0, rdlength := 0, rdata := [] } }

/-- The wire form of `www.example.com`: 16 non-zero bytes and the final zero. -/
def wwwExampleCom : List Nat :=
  [3, 119, 119, 119, 7, 101, 120, 97, 109, 112, 108, 101, 3, 99, 111, 109, 0]

/-- A name of 300 non-zero bytes and the final zero: 301 bytes. -/
def longName : List Nat := List.replicate 300 97 ++ [0]

/-- The four bytes of the address 192.168.0.1. -/
def addrRdata : List Nat := [192, 168, 0, 1]

/-- A scope that binds none of the identifiers the bodies leave free. -/
def emptyScope : Scope := fun _ => none

/-- A scope in which `name`, `rd_len` and `_rdlen` are declared, with the given
values. -/
def scopeOf (name : List Nat) (rd_len _rdlen : Nat) : Scope := fun ident =>
  if ident = "name" then some (.ptr name)
  else if ident = "rd_len" then some (.int rd_len)
  else if ident = "_rdlen" then some (.int _rdlen)
  else none

/-! ## Lemmas -/

theorem beBytes_two (x : Nat) : beBytes 2 x = [x / 256 % 256, x % 256] := by
  simp [beBytes]

theorem split16 (x : Nat) (hx : x < 65536) :
    ∃ a b, a < 256 ∧ b < 256 ∧ x = 256 * a + b :=
  ⟨x / 256, x % 256, by omega, by omega, by omega⟩

theorem split32 (x : Nat) (hx : x < 4294967296) :
    ∃ a b c d, a < 256 ∧ b < 256 ∧ c < 256 ∧ d < 256 ∧
      x = 16777216 * a + 65536 * b + 256 * c + d :=
  ⟨x / 16777216, x / 65536 % 256, x / 256 % 256, x % 256,
    by omega, by omega, by omega, by omega, by omega⟩

theorem bswap16_split (a b : Nat) (ha : a < 256) (hb : b < 256) :
    bswap16 (256 * a + b) = 256 * b + a := by
  unfold bswap16; omega

theorem bswap32_split (a b c d : Nat) (ha : a < 256) (hb : b < 256) (hc : c < 256)
    (hd : d < 256) :
    bswap32 (16777216 * a + 65536 * b + 256 * c + d)
      = 16777216 * d + 65536 * c + 256 * b + a := by
  unfold bswap32; omega

theorem htons_little (x : Nat) (hx : x < 65536) : htons .little x = bswap16 x := by
  simp [htons, Nat.mod_eq_of_lt hx]

theorem htons_big (x : Nat) (hx : x < 65536) : htons .big x = x := by
  simp [htons, Nat.mod_eq_of_lt hx]

theorem htonl_little (x : Nat) (hx : x < 4294967296) : htonl .little x = bswap32 x := by
  simp [htonl, Nat.mod_eq_of_lt hx]

theorem htonl_big (x : Nat) (hx : x < 4294967296) : htonl .big x = x := by
  simp [htonl, Nat.mod_eq_of_lt hx]

theorem beBytes_split16 (a b : Nat) (ha : a < 256) (hb : b < 256) :
    beBytes 2 (256 * a + b) = [a, b] := by
  have h1 : (256 * a + b) / 256 % 256 = a := by omega
  have h2 : (256 * a + b) % 256 = b := by omega
  rw [beBytes_two, h1, h2]

theorem objBytes_htons (host : Endian) (x : Nat) (hx : x < 65536) :
    objBytes host 2 (htons host x) = [x / 256, x % 256] := by
  obtain ⟨a, b, ha, hb, rfl⟩ := split16 x hx
  have h1 : (256 * a + b) / 256 = a := by omega
  have h2 : (256 * a + b) % 256 = b := by omega
  rw [h1, h2]
  cases host
  · rw [htons_little _ hx, bswap16_split a b ha hb]
    simp [objBytes, beBytes_split16 b a hb ha]
  · rw [htons_big _ hx]
    simp [objBytes, beBytes_split16 a b ha hb]

theorem htons_lt (host : Endian) (x : Nat) : htons host x < 65536 := by
  cases host <;> simp only [htons, bswap16] <;> omega

theorem htonl_lt (host : Endian) (x : Nat) : htonl host x < 4294967296 := by
  cases host <;> simp only [htonl, bswap32] <;> omega

theorem ntohs_htons (host : Endian) (x : Nat) (hx : x < 65536) :
    ntohs host (htons host x) = x := by
  obtain ⟨a, b, ha, hb, rfl⟩ := split16 x hx
  cases host
  · have h2 : 256 * b + a < 65536 := by omega
    rw [ntohs, htons_little _ hx, bswap16_split a b ha hb, htons_little _ h2,
      bswap16_split b a hb ha]
  · rw [ntohs, htons_big _ hx, htons_big _ hx]

theorem ntohl_htonl (host : Endian) (x : Nat) (hx : x < 4294967296) :
    ntohl host (htonl host x) = x := by
  obtain ⟨a, b, c, d, ha, hb, hc, hd, rfl⟩ := split32 x hx
  cases host
  · have h2 : 16777216 * d + 65536 * c + 256 * b + a < 4294967296 := by omega
    rw [ntohl, htonl_little _ hx, bswap32_split a b c d ha hb hc hd, htonl_little _ h2,
      bswap32_split d c b a hd hc hb ha]
  · rw [ntohl, htonl_big _ hx, htonl_big _ hx]

theorem length_objBytes (host : Endian) (w x : Nat) : (objBytes host w x).length = w := by
  have h : ∀ w, (beBytes w x).length = w := by
    intro w
    induction w with
    | zero => rfl
    | succ n ih => simp [beBytes, ih]
  cases host <;> simp [objBytes, h]

theorem set_type (r : RR_t) (host : Endian) (x : Nat) :
    r.set "type" (onInt (htons host) (.int x)) = some { r with type := htons host x } := by
  have h := htons_lt host x
  simp [RR_t.set, onInt, sizeof, RR_TYPE_t, Nat.mod_eq_of_lt h]

theorem set_class (r : RR_t) (host : Endian) (x : Nat) :
    r.set "class" (onInt (htons host) (.int x)) = some { r with class_ := htons host x } := by
  have h := htons_lt host x
  simp [RR_t.set, onInt, sizeof, RR_CLASS_t, Nat.mod_eq_of_lt h]

theorem set_ttl (r : RR_t) (host : Endian) (x : Nat) :
    r.set "ttl" (onInt (htonl host) (.int x)) = some { r with ttl := htonl host x } := by
  have h := htonl_lt host x
  simp [RR_t.set, onInt, sizeof, TTL_t, Nat.mod_eq_of_lt h]

theorem set_rdlen (r : RR_t) (v : CVal) : r.set "rdlen" v = none := by
  cases v <;> simp [RR_t.set]

theorem get_rdlen (r : RR_t) : r.get "rdlen" = none := by
  simp [RR_t.get]

theorem set_rdata (r : RR_t) (d : List Nat) :
    r.set "rdata" (.ptr d) = some { r with rdata := d } := by
  simp [RR_t.set]

/-- Line 122 by itself is well formed and assigns `htons (_type)`. -/
theorem assign_type (host : Endian) (scope : Scope) (var : RR_ptr_t) (x : Nat) :
    protocol_struct_member_assign scope var "rr" "type" (.arg (.int x)) (onInt (htons host))
      = .ok { var with rr := { var.rr with type := htons host x } } := by
  simp [protocol_struct_member_assign, Operand.eval, set_type]

/-- Line 123 by itself is well formed and assigns `htons (_class)`. -/
theorem assign_class (host : Endian) (scope : Scope) (var : RR_ptr_t) (x : Nat) :
    protocol_struct_member_assign scope var "rr" "class" (.arg (.int x)) (onInt (htons host))
      = .ok { var with rr := { var.rr with class_ := htons host x } } := by
  simp [protocol_struct_member_assign, Operand.eval, set_class]

/-- Line 124 by itself is well formed and assigns `htonl (_ttl)`. -/
theorem assign_ttl (host : Endian) (scope : Scope) (var : RR_ptr_t) (x : Nat) :
    protocol_struct_member_assign scope var "rr" "ttl" (.arg (.int x)) (onInt (htonl host))
      = .ok { var with rr := { var.rr with ttl := htonl host x } } := by
  simp [protocol_struct_member_assign, Operand.eval, set_ttl]

/-- Line 128 by itself is well formed. -/
theorem assign_rdata (scope : Scope) (var : RR_ptr_t) (d : List Nat) :
    protocol_struct_member_assign scope var "rr" "rdata" (.arg (.ptr d)) id
      = .ok { var with rr := { var.rr with rdata := d } } := by
  simp [protocol_struct_member_assign, Operand.eval, set_rdata]

/-- Line 125 is ill formed for every record, scope and conversion. -/
theorem assign_rdlen (scope : Scope) (var : RR_ptr_t) (conv : CVal → CVal) :
    protocol_struct_member_assign scope var "rr" "rdlen" (.free "_rdlen") conv
      = .error ((Operand.free "_rdlen").diag scope ++ [Diag.noMember "rr" "rdlen"]) := by
  unfold protocol_struct_member_assign
  cases h : scope "_rdlen" <;> simp [Operand.eval, Operand.diag, set_rdlen, get_rdlen, h]

/-- The record as the well-formed statements of `rr_assign` leave it: the name
is copied when the copy is defined, `type`, `class` and `ttl` are converted
and assigned, `rdata` is assigned, `rdlength` is as it was. -/
theorem rr_assign_var (host : Endian) (scope : Scope) (var : RR_ptr_t)
    (_name : List Nat) (_type _class _ttl _rd_len : Nat) (_rdata : List Nat) :
    (rr_assign host scope var _name _type _class _ttl _rd_len _rdata).var
      = { name := match strcpy var.name _name with
            | .ok bytes => bytes
            | .error _ => var.name,
          rr := { type := htons host _type, class_ := htons host _class,
                  ttl := htonl host _ttl, rdlength := var.rr.rdlength,
                  rdata := _rdata } } := by
  unfold rr_assign
  simp only [St.next, assign_type, assign_class, assign_ttl, assign_rdlen, assign_rdata]
  cases strcpy var.name _name <;> rfl

/-- The value of `rr_assign` is computed from the scope alone. -/
theorem rr_assign_value (host : Endian) (scope : Scope) (var : RR_ptr_t)
    (_name : List Nat) (_type _class _ttl _rd_len : Nat) (_rdata : List Nat) :
    (rr_assign host scope var _name _type _class _ttl _rd_len _rdata).value
      = match scope "name", scope "rd_len" with
        | some (.ptr name), some (.int rd_len) =>
          some (((strlen name + 1) + 10 + rd_len) % 2 ^ 64)
        | _, _ => none := by
  simp [rr_assign, Operand.eval, packedSize, RR_t.decl, sizeof, RR_TYPE_t, RR_CLASS_t, TTL_t,
    SIZE_BITS]

/-- The diagnostics of `rr_assign`: line 125 is reported for every use. -/
theorem rr_assign_diag (host : Endian) (scope : Scope) (var : RR_ptr_t)
    (_name : List Nat) (_type _class _ttl _rd_len : Nat) (_rdata : List Nat) :
    (rr_assign host scope var _name _type _class _ttl _rd_len _rdata).diag
      = (Operand.free "_rdlen").diag scope ++ [Diag.noMember "rr" "rdlen"]
          ++ ((Operand.free "name").diag scope ++ (Operand.free "rd_len").diag scope) := by
  unfold rr_assign
  simp only [St.next, assign_type, assign_class, assign_ttl, assign_rdlen, assign_rdata]
  simp

/-- The fault of `rr_assign` is that of its `strcpy`. -/
theorem rr_assign_fault (host : Endian) (scope : Scope) (var : RR_ptr_t)
    (_name : List Nat) (_type _class _ttl _rd_len : Nat) (_rdata : List Nat) :
    (rr_assign host scope var _name _type _class _ttl _rd_len _rdata).fault
      = match strcpy var.name _name with
        | .ok _ => none
        | .error f => some f := by
  simp [rr_assign]

/-- No use of `rr_assign` is accepted by the compiler. -/
theorem rr_assign_effect (host : Endian) (scope : Scope) (var : RR_ptr_t)
    (_name : List Nat) (_type _class _ttl _rd_len : Nat) (_rdata : List Nat) :
    (rr_assign host scope var _name _type _class _ttl _rd_len _rdata).effect = none := by
  simp [Outcome.effect, rr_assign_diag]

theorem slice_bytes (host : Endian) (r : RR_t) :
    (r.bytes host).length = 10 + r.rdata.length
      ∧ slice (r.bytes host) 0 2 = objBytes host 2 r.type
      ∧ slice (r.bytes host) 2 2 = objBytes host 2 r.class_
      ∧ slice (r.bytes host) 4 4 = objBytes host 4 r.ttl
      ∧ slice (r.bytes host) 8 2 = objBytes host 2 r.rdlength
      ∧ (r.bytes host).drop 10 = r.rdata := by
  have h1 := length_objBytes host 2 r.type
  have h2 := length_objBytes host 2 r.class_
  have h3 := length_objBytes host 4 r.ttl
  have h4 := length_objBytes host 2 r.rdlength
  simp only [RR_t.bytes, sizeof, RR_TYPE_t, RR_CLASS_t, TTL_t, slice]
  generalize objBytes host 2 r.type = A at *
  generalize objBytes host 2 r.class_ = B at *
  generalize objBytes host 4 r.ttl = C at *
  generalize objBytes host 2 r.rdlength = D at *
  match A, B, C, D, h1, h2, h3, h4 with
  | [a1, a2], [b1, b2], [c1, c2, c3, c4], [d1, d2], _, _, _, _ =>
    simp
    omega

theorem cstr_append_zero (l rest : List Nat) (h : ∀ b ∈ l, b ≠ 0) :
    cstr (l ++ 0 :: rest) = l := by
  induction l with
  | nil => simp [cstr]
  | cons a t ih =>
    have ha : a ≠ 0 := h a (List.mem_cons_self a t)
    have ht : ∀ b ∈ t, b ≠ 0 := fun b hb => h b (List.mem_cons_of_mem a hb)
    have ih2 := ih ht
    simp only [cstr] at ih2 ⊢
    have hne : (a != 0) = true := by simpa using ha
    rw [List.cons_append, List.takeWhile_cons, hne, if_pos rfl, ih2]

theorem cstr_longName : cstr longName = List.replicate 300 97 := by
  unfold longName
  exact cstr_append_zero _ [] (by
    intro b hb
    rw [List.eq_of_mem_replicate hb]
    decide)

/-- A string that fits the destination is copied with its terminating zero. -/
theorem strcpy_fits (dst src : List Nat) (h0 : 0 ∈ src) (hfit : strlen src + 1 ≤ dst.length) :
    strcpy dst src = .ok (cstr src ++ [0] ++ dst.drop (strlen src + 1)) := by
  simp [strcpy, h0, hfit]

/-- A string longer than the destination is written past its end. -/
theorem strcpy_overruns (dst src : List Nat) (h0 : 0 ∈ src)
    (hlong : dst.length < strlen src + 1) :
    strcpy dst src = .error (.overflow ((cstr src ++ [0]).drop dst.length)) := by
  have h : ¬ strlen src + 1 ≤ dst.length := by omega
  simp [strcpy, h0, h]

theorem zero_mem_longName : 0 ∈ longName :=
  List.mem_append.mpr (Or.inr (List.mem_singleton.mpr rfl))

theorem strlen_longName : strlen longName = 300 := by
  rw [strlen, cstr_longName, List.length_replicate]

theorem strcpy_limit_longName :
    strcpy limitVar.name longName = .error (.overflow (List.replicate 45 97 ++ [0])) := by
  have hlen : limitVar.name.length = 255 := List.length_replicate 255 0
  have h300 : 255 ≤ (List.replicate 300 97).length := by
    rw [List.length_replicate]; decide
  rw [strcpy_overruns _ _ zero_mem_longName (by rw [hlen, strlen_longName]; decide), hlen,
    cstr_longName, List.drop_append_of_le_length h300, List.drop_replicate]

theorem strcpy_roomy_longName :
    strcpy roomyVar.name longName = .ok (longName ++ List.replicate 211 0) := by
  have hlen : roomyVar.name.length = 512 := List.length_replicate 512 0
  rw [strcpy_fits _ _ zero_mem_longName (by rw [hlen, strlen_longName]; decide),
    strlen_longName, cstr_longName]
  show Except.ok (List.replicate 300 97 ++ [0] ++ (List.replicate 512 0).drop (300 + 1)) = _
  rw [List.drop_replicate]
  rfl

theorem strcpy_zeroVar_www : strcpy zeroVar.name wwwExampleCom = .ok wwwExampleCom := by
  simp [strcpy, zeroVar, wwwExampleCom, strlen, cstr]

/-! ## The claims -/

/-- C1: the packed `RR_t` has type at offset 0 (2 bytes), class at 2 (2 bytes),
ttl at 4 (4 bytes), rdlength at 8 (2 bytes) and rdata from offset 10, in that
order; the fixed part is 10 bytes with no padding, and the bytes of a record
in memory are those of its members at these offsets. -/
theorem RR_t_packed_layout :
    packedLayout 0 RR_t.decl
        = [("type", 0, 2), ("class", 2, 2), ("ttl", 4, 4), ("rdlength", 8, 2),
           ("rdata", 10, 0)]
      ∧ packedSize RR_t.decl = 10
      ∧ offsetof RR_t.decl "type" = some 0
      ∧ offsetof RR_t.decl "class" = some 2
      ∧ offsetof RR_t.decl "ttl" = some 4
      ∧ offsetof RR_t.decl "rdlength" = some 8
      ∧ offsetof RR_t.decl "rdata" = some 10
      ∧ ∀ (host : Endian) (r : RR_t),
          (r.bytes host).length = 10 + r.rdata.length
            ∧ slice (r.bytes host) 0 2 = objBytes host 2 r.type
            ∧ slice (r.bytes host) 2 2 = objBytes host 2 r.class_
            ∧ slice (r.bytes host) 4 4 = objBytes host 4 r.ttl
            ∧ slice (r.bytes host) 8 2 = objBytes host 2 r.rdlength
            ∧ (r.bytes host).drop 10 = r.rdata := by
  refine ⟨by decide, by decide, by decide, by decide, by decide, by decide, by decide, ?_⟩
  intro host r
  exact slice_bytes host r

/-- C2: no use of `rr_assign` stores the three members. Lines 122, 123 and 124
by themselves are well formed and assign `htons (_type)`, `htons (_class)`
and `htonl (_ttl)`, but for every use the expansion has the diagnostic of line
125 (no member `rdlen`), so the compiler rejects the use and it has no
effect; at the use with type 1, class 1 and ttl 3600 that diagnostic is the
only one, and the bytes 00 01 that `htons (1)` would be are stored nowhere. -/
theorem rr_assign_rejected_for_every_use :
    (∀ (host : Endian) (scope : Scope) (var : RR_ptr_t) (_name : List Nat)
        (t c v k : Nat) (_rdata : List Nat),
        (rr_assign host scope var _name t c v k _rdata).diag ≠ []
          ∧ (rr_assign host scope var _name t c v k _rdata).effect = none)
      ∧ (∀ (host : Endian) (scope : Scope) (var : RR_ptr_t) (t c v : Nat),
          protocol_struct_member_assign scope var "rr" "type" (.arg (.int t))
              (onInt (htons host))
            = .ok { var with rr := { var.rr with type := htons host t } }
          ∧ protocol_struct_member_assign scope var "rr" "class" (.arg (.int c))
              (onInt (htons host))
            = .ok { var with rr := { var.rr with class_ := htons host c } }
          ∧ protocol_struct_member_assign scope var "rr" "ttl" (.arg (.int v))
              (onInt (htonl host))
            = .ok { var with rr := { var.rr with ttl := htonl host v } })
      ∧ (rr_assign .little (scopeOf wwwExampleCom 4 4) zeroVar wwwExampleCom 1 1 3600 4
          addrRdata).diag = [Diag.noMember "rr" "rdlen"]
      ∧ (rr_assign .little (scopeOf wwwExampleCom 4 4) zeroVar wwwExampleCom 1 1 3600 4
          addrRdata).effect = none
      ∧ objBytes .little 2 (htons .little 1) = [0, 1] := by
  refine ⟨?_, ?_, ?_, rr_assign_effect _ _ _ _ _ _ _ _ _, ?_⟩
  · intro host scope var _name t c v k _rdata
    refine ⟨?_, rr_assign_effect _ _ _ _ _ _ _ _ _⟩
    rw [rr_assign_diag]
    simp
  · intro host scope var t c v
    exact ⟨assign_type host scope var t, assign_class host scope var c,
      assign_ttl host scope var v⟩
  · simp [rr_assign_diag, Operand.diag, scopeOf]
  · exact objBytes_htons .little 1 (by decide)

/-- C3: the round trip through `rr_assign` and `rr_member` loses the rdata
length. For every use, `rr_member (var, rdlength, ntohs)` gives back what the
`rdlength` member held before, whatever length was passed; at the record of
`www.example.com`, type 1, class 1, ttl 3600, length 4, rdata 192.168.0.1
assigned to a zeroed record, name, type, class, ttl and rdata are read back as
assigned and the length is read back as 0. -/
theorem rr_assign_rr_member_rdlength :
    (∀ (host : Endian) (scope : Scope) (var : RR_ptr_t) (_name : List Nat)
        (t c v k : Nat) (_rdata : List Nat),
        rr_member (rr_assign host scope var _name t c v k _rdata).var "rdlength"
            (onInt (ntohs host))
          = some (.int (ntohs host var.rr.rdlength)))
      ∧ rr_member (rr_assign .little (scopeOf wwwExampleCom 4 4) zeroVar wwwExampleCom
            1 1 3600 4 addrRdata).var "name" id = some (.ptr wwwExampleCom)
      ∧ rr_member (rr_assign .little (scopeOf wwwExampleCom 4 4) zeroVar wwwExampleCom
            1 1 3600 4 addrRdata).var "type" (onInt (ntohs .little)) = some (.int 1)
      ∧ rr_member (rr_assign .little (scopeOf wwwExampleCom 4 4) zeroVar wwwExampleCom
            1 1 3600 4 addrRdata).var "class" (onInt (ntohs .little)) = some (.int 1)
      ∧ rr_member (rr_assign .little (scopeOf wwwExampleCom 4 4) zeroVar wwwExampleCom
            1 1 3600 4 addrRdata).var "ttl" (onInt (ntohl .little)) = some (.int 3600)
      ∧ rr_member (rr_assign .little (scopeOf wwwExampleCom 4 4) zeroVar wwwExampleCom
            1 1 3600 4 addrRdata).var "rdata" id = some (.ptr addrRdata)
      ∧ rr_member (rr_assign .little (scopeOf wwwExampleCom 4 4) zeroVar wwwExampleCom
            1 1 3600 4 addrRdata).var "rdlength" (onInt (ntohs .little)) = some (.int 0) := by
  refine ⟨?_, ?_, ?_, ?_, ?_, ?_, ?_⟩
  · intro host scope var _name t c v k _rdata
    simp [rr_assign_var, rr_member, rr_member_rdlength, RR_t.get, onInt]
  · simp [rr_assign_var, rr_member, rr_member_name, RR_ptr_t.get, strcpy_zeroVar_www]
  · rw [rr_assign_var]
    simp [rr_member, rr_member_type, RR_t.get, onInt, ntohs_htons]
  · rw [rr_assign_var]
    simp [rr_member, rr_member_class, RR_t.get, onInt, ntohs_htons]
  · rw [rr_assign_var]
    simp [rr_member, rr_member_ttl, RR_t.get, onInt, ntohl_htonl]
  · simp [rr_assign_var, rr_member, rr_member_rdata, RR_t.get]
  · rw [rr_assign_var]
    simp [rr_member, rr_member_rdlength, RR_t.get, onInt, zeroVar, ntohs, htons, bswap16]

/-- C6: `rr_assign` writes an over-long name. The name of 300 non-zero bytes
and the final zero (301 bytes, more than 255) is handed to `strcpy` with no
test: into a name buffer of 255 bytes the copy runs 46 bytes past the end and
`rr_assign` has that fault, into one of 512 bytes the name is written whole;
in both uses the only diagnostic is the missing member of line 125, which
has nothing to do with the name. -/
theorem rr_assign_name_overrun :
    255 < strlen longName + 1
      ∧ strcpy limitVar.name longName
          = .error (.overflow (List.replicate 45 97 ++ [0]))
      ∧ (rr_assign .little (scopeOf wwwExampleCom 4 4) limitVar longName 1 1 3600 4
          addrRdata).fault = some (.overflow (List.replicate 45 97 ++ [0]))
      ∧ strcpy roomyVar.name longName = .ok (longName ++ List.replicate 211 0)
      ∧ (rr_assign .little (scopeOf wwwExampleCom 4 4) roomyVar longName 1 1 3600 4
          addrRdata).fault = none
      ∧ (rr_assign .little (scopeOf wwwExampleCom 4 4) limitVar longName 1 1 3600 4
          addrRdata).diag = [Diag.noMember "rr" "rdlen"]
      ∧ (rr_assign .little (scopeOf wwwExampleCom 4 4) roomyVar longName 1 1 3600 4
          addrRdata).diag = [Diag.noMember "rr" "rdlen"] := by
  refine ⟨?_, strcpy_limit_longName, ?_, strcpy_roomy_longName, ?_, ?_, ?_⟩
  · rw [strlen_longName]
    decide
  · rw [rr_assign_fault, strcpy_limit_longName]
  · rw [rr_assign_fault, strcpy_roomy_longName]
  · simp [rr_assign_diag, Operand.diag, scopeOf]
  · simp [rr_assign_diag, Operand.diag, scopeOf]

/-- C7: `rr_assign` does not store the length. For every use, the `rdlength`
member and the two bytes at offset 8 of the record are what they were before,
whatever length is passed and whatever `_rdlen` is in scope, and the member
`rdlen` of line 125 is reported as not declared; at length 4 on a zeroed
record the two bytes at offset 8 are 00 00, not 00 04. -/
theorem rr_assign_rdlength_not_stored :
    (∀ (host : Endian) (scope : Scope) (var : RR_ptr_t) (_name : List Nat)
        (t c v n : Nat) (_rdata : List Nat),
        (rr_assign host scope var _name t c v n _rdata).var.rr.rdlength = var.rr.rdlength
          ∧ slice ((rr_assign host scope var _name t c v n _rdata).var.rr.bytes host) 8 2
              = objBytes host 2 var.rr.rdlength
          ∧ Diag.noMember "rr" "rdlen"
              ∈ (rr_assign host scope var _name t c v n _rdata).diag)
      ∧ slice ((rr_assign .little (scopeOf wwwExampleCom 4 4) zeroVar wwwExampleCom 1 1
          3600 4 addrRdata).var.rr.bytes .little) 8 2 = [0, 0]
      ∧ objBytes .little 2 (htons .little 4) = [0, 4] := by
  refine ⟨?_, ?_, ?_⟩
  · intro host scope var _name t c v n _rdata
    refine ⟨?_, ?_, ?_⟩
    · rw [rr_assign_var]
    · rw [(slice_bytes _ _).2.2.2.2.1, rr_assign_var]
    · simp [rr_assign_diag]
  · rw [(slice_bytes _ _).2.2.2.2.1, rr_assign_var]
    simp [zeroVar, objBytes, beBytes]
  · exact objBytes_htons .little 4 (by decide)

/-- C8: `rr_member` dispatches on the member token. For every record and every
function, `rr_member (s, name, f)` is `f (s->name)` and for each of type, class,
ttl, rdlength and rdata `rr_member (s, m, f)` is `f (s->rr->m)`; the result is the
same on any other record that holds the same value in that one member. -/
theorem rr_member_dispatch {β : Type} (s s2 : RR_ptr_t) (f : CVal → β) :
    rr_member s "name" f = some (f (.ptr s.name))
      ∧ rr_member s "type" f = some (f (.int s.rr.type))
      ∧ rr_member s "class" f = some (f (.int s.rr.class_))
      ∧ rr_member s "ttl" f = some (f (.int s.rr.ttl))
      ∧ rr_member s "rdlength" f = some (f (.int s.rr.rdlength))
      ∧ rr_member s "rdata" f = some (f (.ptr s.rr.rdata))
      ∧ rr_member { s2 with name := s.name } "name" f = rr_member s "name" f
      ∧ rr_member { s2 with rr := { s2.rr with type := s.rr.type } } "type" f
          = rr_member s "type" f
      ∧ rr_member { s2 with rr := { s2.rr with class_ := s.rr.class_ } } "class" f
          = rr_member s "class" f
      ∧ rr_member { s2 with rr := { s2.rr with ttl := s.rr.ttl } } "ttl" f
          = rr_member s "ttl" f
      ∧ rr_member { s2 with rr := { s2.rr with rdlength := s.rr.rdlength } } "rdlength" f
          = rr_member s "rdlength" f
      ∧ rr_member { s2 with rr := { s2.rr with rdata := s.rr.rdata } } "rdata" f
          = rr_member s "rdata" f := by
  simp [rr_member, rr_member_name, rr_member_type, rr_member_class, rr_member_ttl,
    rr_member_rdlength, rr_member_rdata, RR_t.get, RR_ptr_t.get]

/-- C9: the value of `rr_assign` is not computed from its arguments. It is the
same for any two names and any two lengths passed, being
`(strlen (name) + 1) + sizeof (RR_t) + rd_len` for the `name` and `rd_len` of
the scope of the use; with the 17-byte name of `www.example.com` and length 4
passed (17 + 10 + 4 = 31), it is 11 where `name` is the empty string and
`rd_len` is 0, and there is no value where the two are not declared. -/
theorem rr_assign_value_from_scope :
    (∀ (host : Endian) (scope : Scope) (var : RR_ptr_t) (n n2 : List Nat)
        (t c v k k2 : Nat) (_rdata : List Nat),
        (rr_assign host scope var n t c v k _rdata).value
          = (rr_assign host scope var n2 t c v k2 _rdata).value)
      ∧ (strlen wwwExampleCom + 1) + packedSize RR_t.decl + 4 = 31
      ∧ (rr_assign .little (scopeOf [0] 0 0) zeroVar wwwExampleCom 1 1 3600 4
          addrRdata).value = some 11
      ∧ (rr_assign .little emptyScope zeroVar wwwExampleCom 1 1 3600 4 addrRdata).value
          = none
      ∧ Diag.undeclared "name"
          ∈ (rr_assign .little emptyScope zeroVar wwwExampleCom 1 1 3600 4 addrRdata).diag := by
  refine ⟨?_, by decide, ?_, ?_, ?_⟩
  · intro host scope var n n2 t c v k k2 _rdata
    simp only [rr_assign_value]
  · simp [rr_assign_value, scopeOf, strlen, cstr]
  · simp [rr_assign_value, emptyScope]
  · simp [rr_assign_diag, Operand.diag, emptyScope]

/-- C10: `rr_locate_assign` does not reach the body of `rr_assign`. For every
use it passes 14 arguments where `rr_assign` takes 7, so that after
`rr_locate` nothing is assigned and there is no size; of the 14 arguments
only `var` is a parameter of `rr_locate_assign`, and `_qname`, `_qtype` and
`_qclass` are not passed on. -/
theorem rr_locate_assign_arity :
    (∀ (host : Endian) (_locate : List Nat → List Nat → List Nat) (scope : Scope)
        (var : RR_ptr_t) (locate _qname : List Nat) (_qtype _qclass : Nat),
        rr_locate_assign host _locate scope var locate _qname _qtype _qclass
          = { var := rr_locate _locate var locate, value := none,
              diag := [Diag.arity 14 7] })
      ∧ rr_locate_assign_args.length = 14
      ∧ rr_assign_params.length = 7
      ∧ rr_locate_assign_args.filter (fun a => decide (a ∈ rr_locate_assign_params))
          = ["var"]
      ∧ rr_locate_assign_params.filter (fun a => decide (a ∈ rr_locate_assign_args))
          = ["var"] := by
  refine ⟨?_, by decide, by decide, by decide, by decide⟩
  intro host _locate scope var locate _qname _qtype _qclass
  simp [rr_locate_assign, rr_assign_use, rr_locate_assign_args, rr_assign_params]

end DDNS
